import Mathlib

/-!
Verification of the prelude cluster-gateway control plane.

The definitions below are shallow embeddings of the Go sources:
string/duration helpers and the `/api/claim`, `/api/cluster/ready`
handlers from the assignment service, the autoscaler reconcile tick
from cluster-claimer/main.go, and the per-claim authenticator flow.
External I/O (resource-store calls, downstream clusters, captcha
verification) is modelled by explicit outcome oracles; durations are
Int nanoseconds with Go's int64 wrap made explicit (wrap64), and the
autoscaler's tick times are Nat seconds.
-/

namespace PreludeGw

/-! ### Character classes and Go string helpers -/

/-- Characters kept verbatim by sanitizePhone: alphanumerics. -/
def isAlnum (c : Char) : Bool :=
  (('a' ≤ c && c ≤ 'z') || ('A' ≤ c && c ≤ 'Z') || ('0' ≤ c && c ≤ '9'))

/-- Characters kept verbatim by sanitizePhone: '-', '_', '.'. -/
def isKeptPunct (c : Char) : Bool :=
  (c == '-' || c == '_' || c == '.')

/-- Characters mapped to '-' by sanitizePhone: space, '+', '(', ')'. -/
def isDashMapped (c : Char) : Bool :=
  (c == ' ' || c == '+' || c == '(' || c == ')')

/-- The cutset of the final strings.Trim in sanitizePhone: "-_.". -/
def isTrimCut (c : Char) : Bool :=
  (c == '-' || c == '_' || c == '.')

/-- The per-rune builder body of sanitizePhone (keep, map to '-', or drop). -/
def sanitizePhoneMap : List Char → List Char
  | [] => []
  | c :: rest =>
    if isAlnum c then c :: sanitizePhoneMap rest
    else if isKeptPunct c then c :: sanitizePhoneMap rest
    else if isDashMapped c then '-' :: sanitizePhoneMap rest
    else sanitizePhoneMap rest

/-- Go strings.Trim: remove leading and trailing runs of cutset characters. -/
def goTrim (p : Char → Bool) (l : List Char) : List Char :=
  ((l.dropWhile p).reverse.dropWhile p).reverse

/-- sanitizePhone from the assignment service: keep `[A-Za-z0-9._-]`, map
space/plus/parentheses to '-', drop the rest, then trim "-_." at both ends. -/
def sanitizePhone (s : String) : String :=
  String.mk (goTrim isTrimCut (sanitizePhoneMap s.toList))

/-- Hex characters accepted by sanitizeFingerprint: 0-9, a-f, A-F. -/
def isHexCh (c : Char) : Bool :=
  (('0' ≤ c && c ≤ '9') || ('a' ≤ c && c ≤ 'f') || ('A' ≤ c && c ≤ 'F'))

/-- The builder loop of sanitizeFingerprint: append hex runes, stop once the
builder holds 16 characters (the length test runs after each rune). -/
def sanitizeFingerprintLoop : List Char → List Char → List Char
  | [], acc => acc
  | c :: rest, acc =>
    let acc2 := if isHexCh c then acc ++ [c] else acc
    if 16 ≤ acc2.length then acc2 else sanitizeFingerprintLoop rest acc2

/-- sanitizeFingerprint from the assignment service. -/
def sanitizeFingerprint (s : String) : String :=
  String.mk (sanitizeFingerprintLoop s.toList [])

/-- Modelled from the spec words of C7 only, for comparison with the source
function: "filtered to lowercase hex characters and truncated to 16". -/
def sanitizeFingerprintSpecLowerHex (s : String) : String :=
  String.mk ((s.toList.filter fun c =>
    (('0' ≤ c && c ≤ '9') || ('a' ≤ c && c ≤ 'f'))).take 16)

/-- Go strings.TrimSpace (ASCII whitespace suffices for the inputs at hand). -/
def goTrimSpace (s : String) : String :=
  String.mk (goTrim Char.isWhitespace s.toList)

/-! ### Durations (whole minutes) -/

/-- Digit test `c >= '0' && c <= '9'` from parseDuration. -/
def isDigitCh (c : Char) : Bool := ('0' ≤ c && c ≤ '9')

/-- Numeric value of a decimal digit character. -/
def digitVal (c : Char) : Nat := c.toNat - 48

/-- Two's-complement wrap into the signed 64-bit range, the semantics of
Go arithmetic on int64 and time.Duration. -/
def wrap64 (x : Int) : Int :=
  (x + 9223372036854775808) % 18446744073709551616 - 9223372036854775808

/-- The scanning loop of parseDuration. `acc` is the value of the pending
digit run, `hasDigits` records whether that run is non-empty (Go keeps the
run as a string and calls Atoi, which errors on values above int64 max),
`total` is the accumulated time.Duration in int64 nanoseconds
(d = 86400e9 ns, h = 3600e9 ns, m = 60e9 ns); each product and sum wraps
as int64 arithmetic does. -/
def parseDurationLoop : List Char → Nat → Bool → Int → Except String Int
  | [], _, hasDigits, total =>
    if hasDigits then Except.error "trailing number without unit"
    else Except.ok total
  | c :: rest, acc, hasDigits, total =>
    if isDigitCh c then parseDurationLoop rest (acc * 10 + digitVal c) true total
    else if !hasDigits then Except.error "invalid duration"
    else if 9223372036854775807 < acc then Except.error "invalid duration"
    else if c == 'd' then
      parseDurationLoop rest 0 false
        (wrap64 (total + wrap64 ((acc : Int) * 86400000000000)))
    else if c == 'h' then
      parseDurationLoop rest 0 false
        (wrap64 (total + wrap64 ((acc : Int) * 3600000000000)))
    else if c == 'm' then
      parseDurationLoop rest 0 false
        (wrap64 (total + wrap64 ((acc : Int) * 60000000000)))
    else Except.error "invalid duration unit"

/-- parseDuration from the assignment service: a time.Duration in int64
nanoseconds. -/
def parseDuration (s : String) : Except String Int :=
  parseDurationLoop s.toList 0 false 0

/-- Decimal digit characters of a positive number, most significant first
(the rendering of fmt.Sprintf with a %d verb). Structural fuel recursion;
`decChars` supplies enough fuel. -/
def decCharsAux : Nat → Nat → List Char
  | 0, _ => []
  | _ + 1, 0 => []
  | fuel + 1, n + 1 =>
    decCharsAux fuel ((n + 1) / 10) ++ [Nat.digitChar ((n + 1) % 10)]

/-- Decimal digits of `n` (empty for 0; formatDuration never prints 0). -/
def decChars (n : Nat) : List Char := decCharsAux (n + 1) n

/-- The parts list formatDuration builds: hours then leftover minutes, each
printed only when positive. -/
def formatDurationParts (hours minutes : Nat) : List Char :=
  (if 0 < hours then decChars hours ++ ['h'] else []) ++
  (if 0 < minutes then decChars minutes ++ ['m'] else [])

/-- formatDuration from the assignment service, over int64-nanosecond
durations (which parseDuration's wrapping arithmetic can make negative):
non-positive yields "0m"; otherwise hours = int(d.Hours()) and the leftover
minutes, each printed only when positive, with the sub-minute "1m" fallback.
The float truncations int(d.Hours()) and int(d.Minutes()) are modeled as
exact integer division, which they equal at every duration the theorems
evaluate (whole minutes and non-positive values). -/
def formatDuration (d : Int) : String :=
  if d ≤ 0 then "0m"
  else if formatDurationParts (d / 3600000000000).toNat
      ((d % 3600000000000) / 60000000000).toNat = [] then "1m"
  else String.mk (formatDurationParts (d / 3600000000000).toNat
    ((d % 3600000000000) / 60000000000).toNat)

/-! ### Data model: cluster claims and their coordination labels -/

/-- The three prelude labels of a ClusterClaim. A Go map read of an absent
key yields "", so "" plays the role of an absent label. -/
structure LabelMap where
  phone : String
  auth : String
  fp : String
deriving Repr, DecidableEq

/-- A ClusterClaim as handled by the services: name, spec.clusterPoolName
(none when the field is absent or not a string), spec.namespace ("" when the
claim is unbound), spec.lifetime, the wall-clock age (time.Since the
creation timestamp, int64 nanoseconds) at handling time, and the label map
(none models a nil metadata.labels). -/
structure ClusterClaim where
  name : String
  poolName : Option String
  ns : String
  lifetime : Option String
  age : Int
  labels : Option LabelMap
deriving Repr, DecidableEq

/-- claimMatchesPool: spec.clusterPoolName equals the configured pool. -/
def claimMatchesPool (c : ClusterClaim) (pool : String) : Bool :=
  c.poolName == some pool

/-- Read the prelude (phone) label; nil map reads "". -/
def labelPhone (c : ClusterClaim) : String :=
  match c.labels with
  | none => ""
  | some m => m.phone

/-- Read the prelude-auth label; nil map reads "". -/
def labelAuth (c : ClusterClaim) : String :=
  match c.labels with
  | none => ""
  | some m => m.auth

/-- Read the prelude-fp label; nil map reads "". -/
def labelFp (c : ClusterClaim) : String :=
  match c.labels with
  | none => ""
  | some m => m.fp

/-- A store Update of a fetched-and-modified claim: replace by name. -/
def updateClaimLabels (pool : List ClusterClaim) (target : ClusterClaim) :
    List ClusterClaim :=
  pool.map fun c => if c.name == target.name then target else c

/-- unlabelClaim: fetch the claim by name, delete the prelude, prelude-auth
and prelude-fp labels and update. `getOk` and `updateOk` are the outcomes of
the two store calls; errors (and a missing claim) leave the pool unchanged,
as the source logs and returns. -/
def unlabelClaim (getOk updateOk : Bool) (pool : List ClusterClaim)
    (claimName : String) : List ClusterClaim :=
  if !getOk then pool
  else
    match pool.find? (fun c => c.name == claimName) with
    | none => pool
    | some c =>
      if updateOk then
        updateClaimLabels pool { c with labels := c.labels.map fun _ => ⟨"", "", ""⟩ }
      else pool

/-! ### The POST /api/claim handler -/

/-- The decoded request body. -/
structure ClaimRequest where
  phone : String
  password : String
  recaptchaToken : String
  fingerprint : String
deriving Repr, DecidableEq

inductive HttpMethod | get | post | other
deriving Repr, DecidableEq

/-- Outcomes of the external calls handleClaim makes, in program order:
body decode, captcha verification, claim list, the two label updates, the
random draw, ClusterDeployment fetch (with its webConsoleURL and admin
kubeconfig secret ref), the two kubeconfig secret fetches (the string is
the extracted kubeconfig), the downstream htpasswd write, and the two store
calls inside unlabelClaim. -/
structure ClaimEnv where
  bodyOk : Bool
  captchaOk : Bool
  listOk : Bool
  backfillUpdateOk : Bool
  labelUpdateOk : Bool
  pick : Nat
  cdGetOk : Bool
  cdWebConsoleURL : String
  cdAdminSecretRef : String
  adminSecretKc : Option String
  userSecretKc : Option String
  htpasswdOk : Bool
  unlabelGetOk : Bool
  unlabelUpdateOk : Bool
deriving Repr, DecidableEq

/-- The handler's HTTP responses. All 500-class errors share one
constructor; expiry is minutes after the chosen claim's creation. -/
inductive ClaimResp
  | methodNotAllowed
  | badBody
  | forbiddenCaptcha
  | missingPhone
  | missingPassword
  | listError
  | conflictDevice
  | internalError
  | notFound
  | unavailable
  | ok (web ai kubeconfig : String) (expiresAt : Option Int)
deriving Repr, DecidableEq

/-- Result of a handleClaim call: response, pool state at response time,
and the name of the claim that was bound (if any was selected). -/
structure ClaimOutcome where
  resp : ClaimResp
  pool : List ClusterClaim
  assigned : Option String
deriving Repr, DecidableEq

/-- The affinity scan: first claim of the pool with prelude-auth=done whose
prelude label equals the sanitized phone (nil-label claims are skipped). -/
def findAffinity (pool : List ClusterClaim) (poolName phone : String) :
    Option ClusterClaim :=
  pool.find? fun c =>
    claimMatchesPool c poolName &&
      (match c.labels with
       | none => false
       | some m => m.auth == "done" && m.phone == phone)

/-- Fingerprint backfill on the affinity claim: when the request fingerprint
is non-empty and differs from the stored one, update the label (a failed
update only logs). -/
def affinityBackfill (backfillUpdateOk : Bool) (pool : List ClusterClaim)
    (c : ClusterClaim) (m : LabelMap) (fingerprint : String) :
    List ClusterClaim :=
  if fingerprint != "" && m.fp != fingerprint then
    if backfillUpdateOk then
      updateClaimLabels pool { c with labels := some { m with fp := fingerprint } }
    else pool
  else pool

/-- The device-conflict scan: some authenticated claim of the pool carries
this fingerprint under a different, non-empty phone. -/
def deviceConflict (pool : List ClusterClaim) (poolName phone fingerprint : String) :
    Bool :=
  pool.any fun c =>
    claimMatchesPool c poolName &&
      (match c.labels with
       | none => false
       | some m =>
         m.auth == "done" && m.fp == fingerprint && m.phone != "" && m.phone != phone)

/-- The fresh-selection candidates: authenticated claims of the pool with an
empty prelude label. -/
def availableClaims (pool : List ClusterClaim) (poolName : String) :
    List ClusterClaim :=
  pool.filter fun c =>
    claimMatchesPool c poolName &&
      (match c.labels with
       | none => false
       | some m => m.auth == "done" && m.phone == "")

/-- A placeholder claim for List.getD; fresh selection only indexes into a
non-empty candidate list, so it is never produced. -/
def dummyClaim : ClusterClaim := ⟨"", none, "", none, 0, none⟩

/-- Go strings.Replace with n = 1: replace the first occurrence only. -/
def goReplaceOnce (s pat rep : String) : String :=
  match s.splitOn pat with
  | [] => s
  | [a] => a
  | a :: b :: rest => a ++ rep ++ String.intercalate pat (b :: rest)

/-- The downstream phase of handleClaim, entered once a claim is selected:
the 404 guard on an empty cluster namespace, ClusterDeployment and
kubeconfig-secret fetches (each error answering 500), the htpasswd write
whose failure unlabels the claim and answers 503, and the 200 response. -/
def afterSelection (env : ClaimEnv) (pool : List ClusterClaim)
    (claimName clusterName : String) (expiresAt : Option Int) : ClaimOutcome :=
  if clusterName == "" then ⟨.notFound, pool, some claimName⟩
  else if !env.cdGetOk then ⟨.internalError, pool, some claimName⟩
  else if env.cdAdminSecretRef == "" then ⟨.internalError, pool, some claimName⟩
  else
    match env.adminSecretKc with
    | none => ⟨.internalError, pool, some claimName⟩
    | some _ =>
      match env.userSecretKc with
      | none => ⟨.internalError, pool, some claimName⟩
      | some userKc =>
        if !env.htpasswdOk then
          ⟨.unavailable,
           unlabelClaim env.unlabelGetOk env.unlabelUpdateOk pool claimName,
           some claimName⟩
        else
          ⟨.ok env.cdWebConsoleURL
             (goReplaceOnce env.cdWebConsoleURL "console-openshift-console"
                "data-science-gateway" ++ "/learning-resources?&keyword=prelude")
             userKc expiresAt,
           pool, some claimName⟩

/-- Fresh selection: draw a random candidate (the draw modelled as
`pick % length`), set its phone and, when non-empty, fingerprint labels,
set spec.lifetime to the formatted age-plus-configured duration, and commit
with one update; a config parse error or a failed update answers 500. -/
def freshSelection (env : ClaimEnv) (pool : List ClusterClaim)
    (poolName lifetimeCfg phone fingerprint : String) : ClaimOutcome :=
  let avail := availableClaims pool poolName
  if avail.length = 0 then ⟨.notFound, pool, none⟩
  else
    let chosen := avail.getD (env.pick % avail.length) dummyClaim
    let m := chosen.labels.getD ⟨"", "", ""⟩
    let m2 : LabelMap :=
      { m with phone := phone, fp := if fingerprint != "" then fingerprint else m.fp }
    match parseDuration lifetimeCfg with
    | .error _ => ⟨.internalError, pool, none⟩
    | .ok cfg =>
      let total := wrap64 (chosen.age + cfg)
      let c2 := { chosen with labels := some m2, lifetime := some (formatDuration total) }
      if env.labelUpdateOk then
        afterSelection env (updateClaimLabels pool c2) chosen.name chosen.ns (some total)
      else ⟨.internalError, pool, none⟩

/-- The selection algorithm of handleClaim over the listed pool: affinity
re-bind (with fingerprint backfill and expiry read from the stored
lifetime), then the device-conflict check, then fresh selection. -/
def selectionPhase (env : ClaimEnv) (pool : List ClusterClaim)
    (poolName lifetimeCfg phone fingerprint : String) : ClaimOutcome :=
  match findAffinity pool poolName phone with
  | some c =>
    let m := c.labels.getD ⟨"", "", ""⟩
    let pool1 := affinityBackfill env.backfillUpdateOk pool c m fingerprint
    let expiresAt := c.lifetime.bind fun lt => (parseDuration lt).toOption
    afterSelection env pool1 c.name c.ns expiresAt
  | none =>
    if fingerprint != "" && deviceConflict pool poolName phone fingerprint then
      ⟨.conflictDevice, pool, none⟩
    else freshSelection env pool poolName lifetimeCfg phone fingerprint

/-- handleClaim: method gate, body decode, the captcha gate (active only
when a secret key is configured: a missing token or a failed verification
answers 403 before anything else runs), phone and password validation,
fingerprint sanitization, the claim list, and the selection phase. -/
def handleClaim (method : HttpMethod) (secretKey : String) (req : ClaimRequest)
    (env : ClaimEnv) (pool : List ClusterClaim) (poolName lifetimeCfg : String) :
    ClaimOutcome :=
  match method with
  | .post =>
    if !env.bodyOk then ⟨.badBody, pool, none⟩
    else if secretKey != "" && req.recaptchaToken == "" then
      ⟨.forbiddenCaptcha, pool, none⟩
    else if secretKey != "" && !env.captchaOk then
      ⟨.forbiddenCaptcha, pool, none⟩
    else if sanitizePhone (goTrimSpace req.phone) == "" then
      ⟨.missingPhone, pool, none⟩
    else if goTrimSpace req.password == "" then ⟨.missingPassword, pool, none⟩
    else if !env.listOk then ⟨.listError, pool, none⟩
    else
      selectionPhase env pool poolName lifetimeCfg
        (sanitizePhone (goTrimSpace req.phone)) (sanitizeFingerprint req.fingerprint)
  | _ => ⟨.methodNotAllowed, pool, none⟩

/-- The label invariant of the pool: every claim carrying a non-empty
prelude phone label also carries prelude-auth=done. -/
def poolAuthInvariant (pool : List ClusterClaim) : Bool :=
  pool.all fun c => labelPhone c == "" || labelAuth c == "done"

/-- Every claim of the pool named `n` carries none of the three prelude
labels (so it is neither assigned nor counted available or ready). -/
def labelsCleared (pool : List ClusterClaim) (n : String) : Prop :=
  ∀ c ∈ pool, c.name = n →
    labelPhone c = "" ∧ labelAuth c = "" ∧ labelFp c = ""

/-! ### The GET /api/cluster/ready handler -/

/-- Outcomes of the external calls handleClusterReady makes, in program
order: the claim list, the ClusterDeployment fetch (carrying its admin
kubeconfig secret ref), the hub secret fetch (the string is the extracted
kubeconfig), the two client constructions, and the fetch of the downstream
authentication ClusterOperator (its conditions as type/status pairs). -/
structure ReadyEnv where
  listOk : Bool
  cdGetOk : Bool
  cdAdminSecretRef : String
  adminSecretKc : Option String
  restConfigOk : Bool
  dynClientOk : Bool
  authCO : Option (List (String × String))
deriving Repr, DecidableEq

/-- Responses of handleClusterReady. -/
inductive ReadyResp
  | methodNotAllowed
  | badRequest
  | ready (b : Bool)
deriving Repr, DecidableEq

/-- handleClusterReady: method gate, the 400 on an empty sanitized phone,
then a lookup chain in which every failure answers {ready:false}; on full
success ready is true iff the authentication ClusterOperator reports a
Progressing condition with status False. -/
def handleClusterReady (method : HttpMethod) (rawPhone : String)
    (env : ReadyEnv) (pool : List ClusterClaim) (poolName : String) : ReadyResp :=
  match method with
  | .get =>
    if sanitizePhone rawPhone == "" then .badRequest
    else if !env.listOk then .ready false
    else if (match pool.find? (fun c =>
          claimMatchesPool c poolName &&
            (match c.labels with
             | none => false
             | some m => m.phone == sanitizePhone rawPhone)) with
        | none => ""
        | some c => c.ns) == "" then .ready false
    else if !env.cdGetOk then .ready false
    else if env.cdAdminSecretRef == "" then .ready false
    else
      match env.adminSecretKc with
      | none => .ready false
      | some kc =>
        if kc == "" then .ready false
        else if !env.restConfigOk then .ready false
        else if !env.dynClientOk then .ready false
        else
          match env.authCO with
          | none => .ready false
          | some conds =>
            .ready (conds.any fun tc => tc.1 == "Progressing" && tc.2 == "False")
  | _ => .methodNotAllowed

/-- Modelled from the spec words of C6 only, for comparison with the
handler: the probe answers true exactly when every lookup step succeeds and
the authentication operator has a Progressing=False condition. -/
def readySpecSuccess (env : ReadyEnv) (pool : List ClusterClaim)
    (poolName phone : String) : Bool :=
  env.listOk &&
  (match pool.find? (fun c =>
      claimMatchesPool c poolName &&
        (match c.labels with
         | none => false
         | some m => m.phone == phone)) with
   | none => false
   | some c => c.ns != "") &&
  env.cdGetOk && env.cdAdminSecretRef != "" &&
  (match env.adminSecretKc with
   | none => false
   | some kc => kc != "") &&
  env.restConfigOk && env.dynClientOk &&
  (match env.authCO with
   | none => false
   | some conds => conds.any fun tc => tc.1 == "Progressing" && tc.2 == "False")

/-! ### The autoscaler reconcile tick (cluster-claimer) -/

/-- countAvailableAndReadyClaims: available = authenticated with no phone,
ready = authenticated (nil label maps read ""). -/
def countAvailableAndReadyClaims (pool : List ClusterClaim) (poolName : String) :
    Nat × Nat :=
  pool.foldl
    (fun acc c =>
      if claimMatchesPool c poolName then
        if labelAuth c == "done" then
          if labelPhone c == "" then (acc.1 + 1, acc.2 + 1) else (acc.1, acc.2 + 1)
        else acc
      else acc)
    (0, 0)

/-- The mutable state of the reconcile loop: the effective claim limit and
the two timestamps (none models Go's zero time.Time), all times in seconds. -/
structure ScalerState where
  effectiveLimit : Nat
  availableSince : Option Nat
  lastScaleUp : Option Nat
deriving Repr, DecidableEq

/-- Which branch of the dynamic-scaling conditional a tick took, and
whether the scale-up branch actually incremented the limit. -/
inductive TickBranch
  | countError
  | scaleUpInc
  | scaleUpNoInc
  | hysteresis
deriving Repr, DecidableEq

/-- One pass of the dynamic-scaling block at the top of reconcile. `count`
is the countAvailableAndReadyClaims result (none models a list error, which
only logs). Cooldown 25 min = 1500 s, hysteresis 10 min = 600 s. -/
def reconcileTick (baseLimit maxLimit increment availableThreshold : Nat)
    (now : Nat) (count : Option (Nat × Nat)) (s : ScalerState) :
    ScalerState × TickBranch :=
  match count with
  | none => (s, .countError)
  | some (available, ready) =>
    if available ≤ availableThreshold ∧ 0 < ready then
      if s.effectiveLimit < maxLimit then
        match s.lastScaleUp with
        | some t =>
          if now - t < 1500 then ({ s with availableSince := none }, .scaleUpNoInc)
          else
            ({ s with
                effectiveLimit := min (s.effectiveLimit + increment) maxLimit,
                availableSince := none,
                lastScaleUp := some now }, .scaleUpInc)
        | none =>
          ({ s with
              effectiveLimit := min (s.effectiveLimit + increment) maxLimit,
              availableSince := none,
              lastScaleUp := some now }, .scaleUpInc)
      else ({ s with availableSince := none }, .scaleUpNoInc)
    else
      match s.availableSince with
      | none => ({ s with availableSince := some now }, .hysteresis)
      | some since =>
        if baseLimit < s.effectiveLimit ∧ 600 ≤ now - since then
          ({ s with effectiveLimit := baseLimit, availableSince := none }, .hysteresis)
        else (s, .hysteresis)

/-- The state reconcile starts from: the effective limit is the base limit,
both timers unset. -/
def initialScalerState (baseLimit : Nat) : ScalerState :=
  ⟨baseLimit, none, none⟩

/-- Run the scaling block over a sequence of ticks, each supplying its
wall-clock instant and count outcome. -/
def runTicks (baseLimit maxLimit increment availableThreshold : Nat)
    (inputs : List (Nat × Option (Nat × Nat))) : ScalerState :=
  inputs.foldl
    (fun s i => (reconcileTick baseLimit maxLimit increment availableThreshold i.1 i.2 s).1)
    (initialScalerState baseLimit)

/-! ### The authenticator's per-claim flow -/

/-- The observable state the authenticator acts on for one claim: its
prelude-auth label value, whether the claim is bound (spec.namespace set),
whether the admin kubeconfig secret on the hub holds the re-minted
credentials, whether the user kubeconfig secret has been written, and
whether the two spoke bootstrap objects exist. -/
structure AuthWorld where
  claimAuth : String
  claimBound : Bool
  hubAdminUpdated : Bool
  hubUserWritten : Bool
  spokeCm : Bool
  spokeHtpass : Bool
deriving Repr, DecidableEq

/-- Outcomes of the external calls of authenticateCluster (and of the final
label write), in program order: ClusterDeployment fetch, presence of the
admin kubeconfig secret ref, hub secret fetch, non-empty extracted
kubeconfig, REST config build, the two spoke client constructions, the
stability gate, the two CSR mint flows, the hub secret writes, the new
spoke client construction, transient errors and create outcomes of the two
bootstrap objects, and the claim get/update of labelClaimAuthenticated. -/
structure AuthEnv where
  getCDOk : Bool
  adminRefPresent : Bool
  getAdminSecretOk : Bool
  adminKcNonEmpty : Bool
  restOk : Bool
  spokeDynOk : Bool
  spokeTypedOk : Bool
  stableOk : Bool
  regenAdminOk : Bool
  updateAdminSecretOk : Bool
  regenUserOk : Bool
  writeUserSecretOk : Bool
  newRestOk : Bool
  newClientOk : Bool
  cmGetErr : Bool
  cmCreateOk : Bool
  htGetErr : Bool
  htCreateOk : Bool
  labelGetOk : Bool
  labelUpdateOk : Bool
deriving Repr, DecidableEq

/-- createSpokeResources: create the prelude configmap and the htpass
secret in openshift-config, each only if missing; a transient get error or
a failed create aborts. Returns the world reached and whether it succeeded. -/
def createSpokeResources (env : AuthEnv) (w : AuthWorld) : AuthWorld × Bool :=
  if w.spokeCm then
    createSpokeHtpass env w
  else if env.cmGetErr then (w, false)
  else if env.cmCreateOk then createSpokeHtpass env { w with spokeCm := true }
  else (w, false)
where
  /-- The htpass-secret half of createSpokeResources. -/
  createSpokeHtpass (env : AuthEnv) (w : AuthWorld) : AuthWorld × Bool :=
    if w.spokeHtpass then (w, true)
    else if env.htGetErr then (w, false)
    else if env.htCreateOk then ({ w with spokeHtpass := true }, true)
    else (w, false)

/-- authenticateCluster: the full per-claim flow, returning the world as
left by the steps that ran and whether every step succeeded. Effects happen
exactly where the source performs them: the admin secret update (step 4),
the user secret write (step 6), and the bootstrap creations (step 7). -/
def authenticateCluster (env : AuthEnv) (w : AuthWorld) : AuthWorld × Bool :=
  if !env.getCDOk then (w, false)
  else if !env.adminRefPresent then (w, false)
  else if !env.getAdminSecretOk then (w, false)
  else if !env.adminKcNonEmpty then (w, false)
  else if !env.restOk then (w, false)
  else if !env.spokeDynOk then (w, false)
  else if !env.spokeTypedOk then (w, false)
  else if !env.stableOk then (w, false)
  else if !env.regenAdminOk then (w, false)
  else if !env.updateAdminSecretOk then (w, false)
  else if !env.regenUserOk then ({ w with hubAdminUpdated := true }, false)
  else if !env.writeUserSecretOk then ({ w with hubAdminUpdated := true }, false)
  else if !env.newRestOk then
    ({ w with hubAdminUpdated := true, hubUserWritten := true }, false)
  else if !env.newClientOk then
    ({ w with hubAdminUpdated := true, hubUserWritten := true }, false)
  else createSpokeResources env
    { w with hubAdminUpdated := true, hubUserWritten := true }

/-- labelClaimAuthenticated: fetch the claim and set prelude-auth=done; a
failed get or update leaves the label untouched (the loop retries later). -/
def labelClaimAuthenticated (env : AuthEnv) (w : AuthWorld) : AuthWorld :=
  if !env.labelGetOk then w
  else if !env.labelUpdateOk then w
  else { w with claimAuth := "done" }

/-- One claim's pass of processUnauthenticatedClaims: already-authenticated
and unbound claims are skipped; otherwise authenticateCluster runs and only
on success is the claim labeled. -/
def processClaimAuth (env : AuthEnv) (w : AuthWorld) : AuthWorld :=
  if w.claimAuth == "done" then w
  else if !w.claimBound then w
  else if (authenticateCluster env w).2 then
    labelClaimAuthenticated env (authenticateCluster env w).1
  else (authenticateCluster env w).1

/-! ### Helper lemmas: fingerprint sanitization -/

theorem sanitizeFingerprintLoop_eq (l : List Char) :
    ∀ acc : List Char, acc.length < 16 →
      sanitizeFingerprintLoop l acc = (acc ++ l.filter isHexCh).take 16 := by
  induction l with
  | nil =>
    intro acc h
    simp only [sanitizeFingerprintLoop, List.filter_nil, List.append_nil]
    exact (List.take_of_length_le (Nat.le_of_lt h)).symm
  | cons c rest ih =>
    intro acc h
    by_cases hc : isHexCh c = true
    · have hfil : (c :: rest).filter isHexCh = c :: rest.filter isHexCh := by
        simp [List.filter_cons, hc]
      have hasc : acc ++ c :: rest.filter isHexCh = (acc ++ [c]) ++ rest.filter isHexCh := by
        simp
      by_cases hlen : 16 ≤ (acc ++ [c]).length
      · have hlen16 : (acc ++ [c]).length = 16 := by
          simp only [List.length_append, List.length_singleton] at hlen ⊢
          omega
        simp only [sanitizeFingerprintLoop, hc, if_true, hlen16, le_refl, if_pos]
        rw [hfil, hasc, List.take_append_of_le_length (by rw [hlen16]),
          ← hlen16, List.take_length]
      · have hlt : (acc ++ [c]).length < 16 := by omega
        simp only [sanitizeFingerprintLoop, hc, if_true, if_neg hlen]
        rw [ih (acc ++ [c]) hlt, hfil, hasc]
    · have hc2 : isHexCh c = false := by simpa using hc
      have hfil : (c :: rest).filter isHexCh = rest.filter isHexCh := by
        simp [List.filter_cons, hc2]
      have hnle : ¬ 16 ≤ acc.length := by omega
      simp only [sanitizeFingerprintLoop, hc2, Bool.false_eq_true, if_false]
      rw [if_neg hnle, ih acc h, hfil]

theorem sanitizeFingerprint_eq_filter_take (s : String) :
    sanitizeFingerprint s = String.mk ((s.toList.filter isHexCh).take 16) := by
  unfold sanitizeFingerprint
  rw [sanitizeFingerprintLoop_eq s.toList [] (by simp)]
  simp

theorem afterSelection_resp_ne_conflict (env : ClaimEnv) (pool : List ClusterClaim)
    (claimName clusterName : String) (exp : Option Int) :
    (afterSelection env pool claimName clusterName exp).resp ≠
      ClaimResp.conflictDevice := by
  unfold afterSelection
  repeat' split
  all_goals simp

theorem freshSelection_resp_ne_conflict (env : ClaimEnv) (pool : List ClusterClaim)
    (poolName lifetimeCfg phone fingerprint : String) :
    (freshSelection env pool poolName lifetimeCfg phone fingerprint).resp ≠
      ClaimResp.conflictDevice := by
  unfold freshSelection
  cases hfp : (fingerprint != "") <;>
    simp only [hfp, Bool.false_eq_true, if_false, if_true] <;>
    repeat' split
  all_goals first
    | apply afterSelection_resp_ne_conflict
    | simp

theorem selectionPhase_fp_empty_ne_conflict (env : ClaimEnv)
    (pool : List ClusterClaim) (poolName lifetimeCfg phone : String) :
    (selectionPhase env pool poolName lifetimeCfg phone "").resp ≠
      ClaimResp.conflictDevice := by
  unfold selectionPhase
  split
  · apply afterSelection_resp_ne_conflict
  · have hfp : (("" : String) != "") = false := by decide
    rw [hfp, Bool.false_and, if_neg (by simp)]
    apply freshSelection_resp_ne_conflict

theorem handleClaim_fp_empty_ne_conflict (method : HttpMethod) (secretKey : String)
    (req : ClaimRequest) (env : ClaimEnv) (pool : List ClusterClaim)
    (poolName lifetimeCfg : String)
    (hfp : sanitizeFingerprint req.fingerprint = "") :
    (handleClaim method secretKey req env pool poolName lifetimeCfg).resp ≠
      ClaimResp.conflictDevice := by
  unfold handleClaim
  cases method <;> try simp
  repeat' split
  all_goals try simp
  rw [hfp]
  apply selectionPhase_fp_empty_ne_conflict

/-! ### Helper lemmas: phone sanitization -/

/-- The characters sanitizePhone may emit: alphanumerics and '-', '_', '.'. -/
theorem sanitizePhoneMap_chars (l : List Char) :
    ∀ c ∈ sanitizePhoneMap l, (isAlnum c || isKeptPunct c) = true := by
  induction l with
  | nil => intro c hc; simp [sanitizePhoneMap] at hc
  | cons a rest ih =>
    intro c hc
    unfold sanitizePhoneMap at hc
    by_cases h1 : isAlnum a = true
    · rw [if_pos h1] at hc
      rcases List.mem_cons.mp hc with h | h
      · subst h; simp [h1]
      · exact ih c h
    · rw [if_neg h1] at hc
      by_cases h2 : isKeptPunct a = true
      · rw [if_pos h2] at hc
        rcases List.mem_cons.mp hc with h | h
        · subst h; simp [h2]
        · exact ih c h
      · rw [if_neg h2] at hc
        by_cases h3 : isDashMapped a = true
        · rw [if_pos h3] at hc
          rcases List.mem_cons.mp hc with h | h
          · subst h; decide
          · exact ih c h
        · rw [if_neg h3] at hc
          exact ih c hc

/-- sanitizePhoneMap fixes lists of already-sanitized characters. -/
theorem sanitizePhoneMap_fixed (l : List Char)
    (h : ∀ c ∈ l, (isAlnum c || isKeptPunct c) = true) :
    sanitizePhoneMap l = l := by
  induction l with
  | nil => rfl
  | cons a rest ih =>
    have ha := h a (List.mem_cons_self a rest)
    have hrest := ih fun c hc => h c (List.mem_cons_of_mem a hc)
    unfold sanitizePhoneMap
    by_cases h1 : isAlnum a = true
    · rw [if_pos h1, hrest]
    · have h2 : isKeptPunct a = true := by
        rcases Bool.or_eq_true_iff.mp ha with h | h
        · exact absurd h h1
        · exact h
      rw [if_neg h1, if_pos h2, hrest]

/-- Members of a trimmed list are members of the original list. -/
theorem mem_goTrim (p : Char → Bool) (l : List Char) :
    ∀ c ∈ goTrim p l, c ∈ l := by
  intro c hc
  unfold goTrim at hc
  have h1 := (List.dropWhile_suffix (l := (l.dropWhile p).reverse) p).mem
    (List.mem_reverse.mp hc)
  exact (List.dropWhile_suffix p).mem (List.mem_reverse.mp h1)

/-- The head of a dropWhile result fails the predicate. -/
theorem dropWhile_head_false (p : Char → Bool) (l : List Char) (c : Char)
    (h : (l.dropWhile p).head? = some c) : p c = false := by
  induction l with
  | nil => simp [List.dropWhile] at h
  | cons a rest ih =>
    by_cases ha : p a = true
    · rw [List.dropWhile_cons_of_pos ha] at h
      exact ih h
    · rw [List.dropWhile_cons_of_neg ha] at h
      simp at h
      subst h
      simpa using ha

/-- The last element of a dropWhile result is the last of the original. -/
theorem dropWhile_getLast? (p : Char → Bool) (l : List Char)
    (h : l.dropWhile p ≠ []) : (l.dropWhile p).getLast? = l.getLast? := by
  obtain ⟨t, ht⟩ := List.dropWhile_suffix (l := l) p
  conv_rhs => rw [← ht]
  rw [List.getLast?_append_of_ne_nil t h]

/-- Both ends of a trimmed list fail the trim predicate. -/
theorem goTrim_ends (p : Char → Bool) (l : List Char) :
    (∀ c, (goTrim p l).head? = some c → p c = false) ∧
    (∀ c, (goTrim p l).getLast? = some c → p c = false) := by
  constructor
  · intro c hc
    unfold goTrim at hc
    rw [List.head?_reverse] at hc
    have hne : ((l.dropWhile p).reverse.dropWhile p) ≠ [] := by
      intro hnil
      rw [hnil] at hc
      simp at hc
    rw [dropWhile_getLast? p _ hne, List.getLast?_reverse] at hc
    exact dropWhile_head_false p _ c hc
  · intro c hc
    unfold goTrim at hc
    rw [List.getLast?_reverse] at hc
    exact dropWhile_head_false p _ c hc

/-- Trimming a list whose ends already fail the predicate is the identity. -/
theorem goTrim_fixed (p : Char → Bool) (l : List Char)
    (hhead : ∀ c, l.head? = some c → p c = false)
    (hlast : ∀ c, l.getLast? = some c → p c = false) :
    goTrim p l = l := by
  have hdrop : l.dropWhile p = l := by
    cases l with
    | nil => rfl
    | cons a rest =>
      have := hhead a rfl
      rw [List.dropWhile_cons_of_neg (by simp [this])]
  unfold goTrim
  rw [hdrop]
  have hdrop2 : l.reverse.dropWhile p = l.reverse := by
    cases hrev : l.reverse with
    | nil => rfl
    | cons a rest =>
      have hl : l.getLast? = some a := by
        rw [← List.head?_reverse, hrev]; rfl
      have := hlast a hl
      exact List.dropWhile_cons_of_neg (by simp [this])
  rw [hdrop2, List.reverse_reverse]

/-- goTrim is idempotent. -/
theorem goTrim_idem (p : Char → Bool) (l : List Char) :
    goTrim p (goTrim p l) = goTrim p l :=
  goTrim_fixed p (goTrim p l) (goTrim_ends p l).1 (goTrim_ends p l).2

/-! ### Helper lemmas: decimal printing and duration parsing -/

theorem digitChar_isDigit (r : Nat) (h : r < 10) :
    isDigitCh (Nat.digitChar r) = true := by
  have hall : ∀ x : Fin 10, isDigitCh (Nat.digitChar x.val) = true := by decide
  exact hall ⟨r, h⟩

theorem digitVal_digitChar (r : Nat) (h : r < 10) :
    digitVal (Nat.digitChar r) = r := by
  have hall : ∀ x : Fin 10, digitVal (Nat.digitChar x.val) = x.val := by decide
  exact hall ⟨r, h⟩

theorem decCharsAux_digits (fuel : Nat) :
    ∀ n, ∀ c ∈ decCharsAux fuel n, isDigitCh c = true := by
  induction fuel with
  | zero => intro n c hc; simp [decCharsAux] at hc
  | succ fuel ih =>
    intro n c hc
    cases n with
    | zero => simp [decCharsAux] at hc
    | succ m =>
      unfold decCharsAux at hc
      rcases List.mem_append.mp hc with h | h
      · exact ih _ c h
      · have hc2 : c = Nat.digitChar ((m + 1) % 10) := by simpa using h
        subst hc2
        exact digitChar_isDigit _ (Nat.mod_lt _ (by norm_num))

theorem decCharsAux_foldl (fuel : Nat) :
    ∀ n, n < fuel →
      (decCharsAux fuel n).foldl (fun a c => a * 10 + digitVal c) 0 = n := by
  induction fuel with
  | zero => intro n h; omega
  | succ fuel ih =>
    intro n h
    cases n with
    | zero => simp [decCharsAux]
    | succ m =>
      unfold decCharsAux
      rw [List.foldl_append]
      have hdiv : (m + 1) / 10 < fuel :=
        lt_of_lt_of_le (Nat.div_lt_self (Nat.succ_pos m) (by norm_num))
          (Nat.lt_succ_iff.mp h)
      rw [ih _ hdiv]
      simp only [List.foldl_cons, List.foldl_nil]
      rw [digitVal_digitChar _ (Nat.mod_lt _ (by norm_num))]
      omega

theorem decChars_foldl (n : Nat) :
    (decChars n).foldl (fun a c => a * 10 + digitVal c) 0 = n :=
  decCharsAux_foldl (n + 1) n (Nat.lt_succ_self n)

theorem decChars_digits (n : Nat) : ∀ c ∈ decChars n, isDigitCh c = true :=
  decCharsAux_digits (n + 1) n

theorem decChars_ne_nil (n : Nat) (h : 0 < n) : decChars n ≠ [] := by
  cases n with
  | zero => omega
  | succ m => simp [decChars, decCharsAux]

theorem toList_mk (l : List Char) : (String.mk l).toList = l := rfl

theorem parseDurationLoop_digit_step (c : Char) (rest : List Char) (acc : Nat)
    (hasD : Bool) (total : Int) (hc : isDigitCh c = true) :
    parseDurationLoop (c :: rest) acc hasD total =
      parseDurationLoop rest (acc * 10 + digitVal c) true total := by
  conv_lhs => unfold parseDurationLoop
  rw [if_pos hc]

theorem parseDurationLoop_digits (l : List Char) :
    ∀ (rest : List Char) (acc : Nat) (hasD : Bool) (total : Int),
      (∀ c ∈ l, isDigitCh c = true) →
      parseDurationLoop (l ++ rest) acc hasD total =
        parseDurationLoop rest (l.foldl (fun a c => a * 10 + digitVal c) acc)
          (hasD || !l.isEmpty) total := by
  induction l with
  | nil => intro rest acc hasD total _; simp
  | cons c cs ih =>
    intro rest acc hasD total h
    have hc := h c (List.mem_cons_self c cs)
    simp only [List.cons_append]
    rw [parseDurationLoop_digit_step c _ _ _ _ hc,
      ih rest _ true total fun x hx => h x (List.mem_cons_of_mem c hx)]
    simp

theorem parseDurationLoop_h (rest : List Char) (acc : Nat) (total : Int)
    (hacc : ¬ 9223372036854775807 < acc) :
    parseDurationLoop ('h' :: rest) acc true total =
      parseDurationLoop rest 0 false
        (wrap64 (total + wrap64 ((acc : Int) * 3600000000000))) := by
  conv_lhs => unfold parseDurationLoop
  rw [if_neg (by decide), if_neg (by decide), if_neg hacc,
    if_neg (by decide), if_pos (by decide)]

theorem parseDurationLoop_m (rest : List Char) (acc : Nat) (total : Int)
    (hacc : ¬ 9223372036854775807 < acc) :
    parseDurationLoop ('m' :: rest) acc true total =
      parseDurationLoop rest 0 false
        (wrap64 (total + wrap64 ((acc : Int) * 60000000000))) := by
  conv_lhs => unfold parseDurationLoop
  rw [if_neg (by decide), if_neg (by decide), if_neg hacc,
    if_neg (by decide), if_neg (by decide), if_pos (by decide)]

theorem parseDurationLoop_nil (total : Int) :
    parseDurationLoop [] 0 false total = Except.ok total := rfl

theorem isEmpty_false_of_ne_nil (l : List Char) (h : l ≠ []) :
    l.isEmpty = false := by
  cases l with
  | nil => exact absurd rfl h
  | cons a t => rfl

theorem wrap64_bounds (x : Int) :
    -9223372036854775808 ≤ wrap64 x ∧ wrap64 x < 9223372036854775808 := by
  unfold wrap64
  omega

theorem wrap64_eq_self (x : Int) (h1 : -9223372036854775808 ≤ x)
    (h2 : x < 9223372036854775808) : wrap64 x = x := by
  unfold wrap64
  omega

theorem parseDurationLoop_ok_range (l : List Char) :
    ∀ (acc : Nat) (hasD : Bool) (total v : Int),
      -9223372036854775808 ≤ total → total < 9223372036854775808 →
      parseDurationLoop l acc hasD total = Except.ok v →
      -9223372036854775808 ≤ v ∧ v < 9223372036854775808 := by
  induction l with
  | nil =>
    intro acc hasD total v h1 h2 hp
    unfold parseDurationLoop at hp
    split at hp
    · exact absurd hp (by simp)
    · obtain rfl : total = v := by simpa using hp
      exact ⟨h1, h2⟩
  | cons c rest ih =>
    intro acc hasD total v h1 h2 hp
    unfold parseDurationLoop at hp
    repeat' split at hp
    all_goals first
      | exact absurd hp (by simp)
      | exact ih _ _ _ _ h1 h2 hp
      | exact ih _ _ _ _ (wrap64_bounds _).1 (wrap64_bounds _).2 hp

theorem parseDuration_ok_range (s : String) (v : Int)
    (hp : parseDuration s = Except.ok v) :
    -9223372036854775808 ≤ v ∧ v < 9223372036854775808 :=
  parseDurationLoop_ok_range s.toList 0 false 0 v (by decide) (by decide) hp

theorem parseDuration_formatDuration_minutes (v : Int) (m : Nat)
    (hv : v = 60000000000 * (m : Int)) (hr : v < 9223372036854775808) :
    parseDuration (formatDuration v) = Except.ok v := by
  by_cases hm0 : m = 0
  · subst hm0
    simp only [Nat.cast_zero, mul_zero] at hv
    subst hv
    rfl
  · have hmpos : 0 < m := Nat.pos_of_ne_zero hm0
    have hvpos : 0 < v := by omega
    have hacc1 : ¬ 9223372036854775807 < m / 60 := by omega
    have hacc2 : ¬ 9223372036854775807 < m % 60 := by omega
    have hhours : (v / 3600000000000).toNat = m / 60 := by omega
    have hmins : ((v % 3600000000000) / 60000000000).toNat = m % 60 := by omega
    have hfd0 : formatDuration v =
        (if formatDurationParts (m / 60) (m % 60) = [] then "1m"
         else String.mk (formatDurationParts (m / 60) (m % 60))) := by
      unfold formatDuration
      rw [if_neg (by omega), hhours, hmins]
    by_cases hh : 0 < m / 60 <;> by_cases hmm : 0 < m % 60
    · have hparts : formatDurationParts (m / 60) (m % 60) =
          decChars (m / 60) ++ ('h' :: (decChars (m % 60) ++ ['m'])) := by
        unfold formatDurationParts
        rw [if_pos hh, if_pos hmm]
        simp
      have hfd : formatDuration v =
          String.mk (formatDurationParts (m / 60) (m % 60)) := by
        rw [hfd0, if_neg (by rw [hparts]; simp)]
      unfold parseDuration
      rw [hfd, toList_mk, hparts,
        parseDurationLoop_digits _ _ _ _ _ (decChars_digits _), decChars_foldl,
        isEmpty_false_of_ne_nil _ (decChars_ne_nil _ hh)]
      simp only [Bool.not_false, Bool.false_or]
      rw [parseDurationLoop_h _ _ _ hacc1,
        parseDurationLoop_digits _ _ _ _ _ (decChars_digits _), decChars_foldl,
        isEmpty_false_of_ne_nil _ (decChars_ne_nil _ hmm)]
      simp only [Bool.not_false, Bool.false_or]
      rw [parseDurationLoop_m _ _ _ hacc2, parseDurationLoop_nil]
      simp only [Except.ok.injEq]
      unfold wrap64
      omega
    · have hparts : formatDurationParts (m / 60) (m % 60) =
          decChars (m / 60) ++ ['h'] := by
        unfold formatDurationParts
        rw [if_pos hh, if_neg hmm, List.append_nil]
      have hfd : formatDuration v =
          String.mk (formatDurationParts (m / 60) (m % 60)) := by
        rw [hfd0, if_neg (by rw [hparts]; simp)]
      unfold parseDuration
      rw [hfd, toList_mk, hparts,
        parseDurationLoop_digits _ _ _ _ _ (decChars_digits _), decChars_foldl,
        isEmpty_false_of_ne_nil _ (decChars_ne_nil _ hh)]
      simp only [Bool.not_false, Bool.false_or]
      rw [parseDurationLoop_h _ _ _ hacc1, parseDurationLoop_nil]
      simp only [Except.ok.injEq]
      unfold wrap64
      omega
    · have hparts : formatDurationParts (m / 60) (m % 60) =
          decChars (m % 60) ++ ['m'] := by
        unfold formatDurationParts
        rw [if_neg hh, if_pos hmm, List.nil_append]
      have hfd : formatDuration v =
          String.mk (formatDurationParts (m / 60) (m % 60)) := by
        rw [hfd0, if_neg (by rw [hparts]; simp)]
      unfold parseDuration
      rw [hfd, toList_mk, hparts,
        parseDurationLoop_digits _ _ _ _ _ (decChars_digits _), decChars_foldl,
        isEmpty_false_of_ne_nil _ (decChars_ne_nil _ hmm)]
      simp only [Bool.not_false, Bool.false_or]
      rw [parseDurationLoop_m _ _ _ hacc2, parseDurationLoop_nil]
      simp only [Except.ok.injEq]
      unfold wrap64
      omega
    · exfalso
      omega

/-! ### Helper lemmas: the phone-implies-auth pool invariant -/

theorem updateClaimLabels_inv (pool : List ClusterClaim) (t : ClusterClaim)
    (h : poolAuthInvariant pool = true)
    (ht : (labelPhone t == "" || labelAuth t == "done") = true) :
    poolAuthInvariant (updateClaimLabels pool t) = true := by
  unfold poolAuthInvariant updateClaimLabels
  rw [List.all_map, List.all_eq_true]
  intro c hc
  unfold poolAuthInvariant at h
  rw [List.all_eq_true] at h
  simp only [Function.comp]
  split
  · exact ht
  · exact h c hc

theorem findAffinity_some (pool : List ClusterClaim) (poolName phone : String)
    (c : ClusterClaim) (h : findAffinity pool poolName phone = some c) :
    c ∈ pool ∧ ∃ m, c.labels = some m ∧ m.auth = "done" ∧ m.phone = phone := by
  have hmem := List.mem_of_find?_eq_some h
  have hp := List.find?_some h
  refine ⟨hmem, ?_⟩
  cases hl : c.labels with
  | none => rw [hl] at hp; simp at hp
  | some m =>
    rw [hl] at hp
    simp only [Bool.and_eq_true, beq_iff_eq] at hp
    exact ⟨m, rfl, hp.2.1, hp.2.2⟩

theorem availableClaims_mem (pool : List ClusterClaim) (poolName : String)
    (c : ClusterClaim) (hc : c ∈ availableClaims pool poolName) :
    c ∈ pool ∧ ∃ m, c.labels = some m ∧ m.auth = "done" ∧ m.phone = "" := by
  rw [availableClaims, List.mem_filter] at hc
  obtain ⟨hmem, hp⟩ := hc
  refine ⟨hmem, ?_⟩
  cases hl : c.labels with
  | none => rw [hl] at hp; simp at hp
  | some m =>
    rw [hl] at hp
    simp only [Bool.and_eq_true, beq_iff_eq] at hp
    exact ⟨m, rfl, hp.2.1, hp.2.2⟩

theorem getD_mod_mem (l : List ClusterClaim) (k : Nat) (d : ClusterClaim)
    (h : l ≠ []) : l.getD (k % l.length) d ∈ l := by
  have hlen : 0 < l.length := List.length_pos.mpr h
  have hk : k % l.length < l.length := Nat.mod_lt _ hlen
  rw [List.getD_eq_getElem l d hk]
  exact List.getElem_mem hk

theorem unlabelClaim_inv (g u : Bool) (pool : List ClusterClaim) (n : String)
    (h : poolAuthInvariant pool = true) :
    poolAuthInvariant (unlabelClaim g u pool n) = true := by
  unfold unlabelClaim
  split
  · exact h
  · split
    · exact h
    · split
      · apply updateClaimLabels_inv _ _ h
        rename_i c _ _
        cases c.labels <;> simp [labelPhone]
      · exact h

theorem afterSelection_inv (env : ClaimEnv) (pool : List ClusterClaim)
    (claimName clusterName : String) (e : Option Int)
    (h : poolAuthInvariant pool = true) :
    poolAuthInvariant (afterSelection env pool claimName clusterName e).pool = true := by
  unfold afterSelection
  repeat' split
  all_goals first
    | exact h
    | exact unlabelClaim_inv _ _ _ _ h

theorem availChosen_auth (pool : List ClusterClaim) (poolName : String) (k : Nat)
    (hne : ¬ (availableClaims pool poolName).length = 0) :
    ∃ m0, ((availableClaims pool poolName).getD
        (k % (availableClaims pool poolName).length) dummyClaim).labels = some m0 ∧
      m0.auth = "done" ∧ m0.phone = "" := by
  have hne2 : availableClaims pool poolName ≠ [] := by
    intro hnil
    rw [hnil] at hne
    exact hne rfl
  exact (availableClaims_mem pool poolName _
    (getD_mod_mem (availableClaims pool poolName) k dummyClaim hne2)).2

theorem freshSelection_inv (env : ClaimEnv) (pool : List ClusterClaim)
    (poolName lifetimeCfg phone fp : String)
    (h : poolAuthInvariant pool = true) :
    poolAuthInvariant (freshSelection env pool poolName lifetimeCfg phone fp).pool
      = true := by
  unfold freshSelection
  cases hfp : (fp != "") <;>
    simp only [hfp, Bool.false_eq_true, if_false, if_true]
  · split
    · exact h
    · rename_i hlen
      obtain ⟨m0, hl, hauth, _⟩ := availChosen_auth pool poolName env.pick hlen
      split
      · exact h
      · split
        · apply afterSelection_inv
          apply updateClaimLabels_inv _ _ h
          simp only [labelAuth, labelPhone, hl, Option.getD_some, hauth]
          simp
        · exact h
  · split
    · exact h
    · rename_i hlen
      obtain ⟨m0, hl, hauth, _⟩ := availChosen_auth pool poolName env.pick hlen
      split
      · exact h
      · split
        · apply afterSelection_inv
          apply updateClaimLabels_inv _ _ h
          simp only [labelAuth, labelPhone, hl, Option.getD_some, hauth]
          simp
        · exact h

theorem unlabelClaim_clears (pool : List ClusterClaim) (n : String)
    (hex : ∃ c ∈ pool, c.name = n) :
    labelsCleared (unlabelClaim true true pool n) n := by
  obtain ⟨cw, hcw, hcwn⟩ := hex
  have hsome : (pool.find? fun c => c.name == n).isSome = true :=
    List.find?_isSome.mpr ⟨cw, hcw, by simp [hcwn]⟩
  obtain ⟨c0, hfind⟩ := Option.isSome_iff_exists.mp hsome
  have hc0n : c0.name = n := by
    have := List.find?_some hfind
    simpa using this
  have hun : unlabelClaim true true pool n =
      updateClaimLabels pool
        { c0 with labels := c0.labels.map fun _ => ⟨"", "", ""⟩ } := by
    unfold unlabelClaim
    rw [hfind]
    simp
  intro c hc hcn
  rw [hun] at hc
  unfold updateClaimLabels at hc
  obtain ⟨a, ha, hac⟩ := List.mem_map.mp hc
  by_cases hname : (a.name == c0.name) = true
  · rw [if_pos hname] at hac
    subst hac
    cases c0.labels <;> simp [labelPhone, labelAuth, labelFp]
  · rw [if_neg hname] at hac
    subst hac
    rw [hcn, ← hc0n] at hname
    simp at hname

theorem afterSelection_unavailable_clears (env : ClaimEnv)
    (pool : List ClusterClaim) (claimName clusterName : String) (e : Option Int)
    (hg : env.unlabelGetOk = true) (hu : env.unlabelUpdateOk = true)
    (hex : ∃ c ∈ pool, c.name = claimName) :
    (afterSelection env pool claimName clusterName e).resp = ClaimResp.unavailable →
      ∃ n, (afterSelection env pool claimName clusterName e).assigned = some n ∧
        labelsCleared (afterSelection env pool claimName clusterName e).pool n := by
  unfold afterSelection
  repeat' split
  all_goals intro h
  all_goals try simp at h
  refine ⟨claimName, rfl, ?_⟩
  rw [hg, hu]
  exact unlabelClaim_clears pool claimName hex

theorem updateClaimLabels_name_mem (pool : List ClusterClaim) (t : ClusterClaim)
    (n : String) (ht : t.name = n) (hex : ∃ c ∈ pool, c.name = n) :
    ∃ c ∈ updateClaimLabels pool t, c.name = n := by
  obtain ⟨c, hc, hcn⟩ := hex
  refine ⟨if c.name == t.name then t else c, ?_, ?_⟩
  · exact List.mem_map.mpr ⟨c, hc, rfl⟩
  · split
    · exact ht
    · exact hcn

theorem affinityBackfill_name_mem (b : Bool) (pool : List ClusterClaim)
    (c : ClusterClaim) (m : LabelMap) (fp : String) (hc : c ∈ pool) :
    ∃ x ∈ affinityBackfill b pool c m fp, x.name = c.name := by
  unfold affinityBackfill
  split
  · split
    · exact updateClaimLabels_name_mem pool _ _ rfl ⟨c, hc, rfl⟩
    · exact ⟨c, hc, rfl⟩
  · exact ⟨c, hc, rfl⟩

theorem freshSelection_unavailable_clears (env : ClaimEnv)
    (pool : List ClusterClaim) (poolName lifetimeCfg phone fp : String)
    (hg : env.unlabelGetOk = true) (hu : env.unlabelUpdateOk = true) :
    (freshSelection env pool poolName lifetimeCfg phone fp).resp =
        ClaimResp.unavailable →
      ∃ n, (freshSelection env pool poolName lifetimeCfg phone fp).assigned
          = some n ∧
        labelsCleared (freshSelection env pool poolName lifetimeCfg phone fp).pool
          n := by
  unfold freshSelection
  cases hfp : (fp != "") <;>
    simp only [hfp, Bool.false_eq_true, if_false, if_true]
  · split
    · intro h; simp at h
    · rename_i hlen
      have hne : availableClaims pool poolName ≠ [] := by
        intro hnil
        rw [hnil] at hlen
        exact hlen rfl
      have hmem := (availableClaims_mem pool poolName _
        (getD_mod_mem (availableClaims pool poolName) env.pick dummyClaim hne)).1
      split
      · intro h; simp at h
      · split
        · apply afterSelection_unavailable_clears _ _ _ _ _ hg hu
          exact updateClaimLabels_name_mem _ _ _ rfl ⟨_, hmem, rfl⟩
        · intro h; simp at h
  · split
    · intro h; simp at h
    · rename_i hlen
      have hne : availableClaims pool poolName ≠ [] := by
        intro hnil
        rw [hnil] at hlen
        exact hlen rfl
      have hmem := (availableClaims_mem pool poolName _
        (getD_mod_mem (availableClaims pool poolName) env.pick dummyClaim hne)).1
      split
      · intro h; simp at h
      · split
        · apply afterSelection_unavailable_clears _ _ _ _ _ hg hu
          exact updateClaimLabels_name_mem _ _ _ rfl ⟨_, hmem, rfl⟩
        · intro h; simp at h

theorem selectionPhase_unavailable_clears (env : ClaimEnv)
    (pool : List ClusterClaim) (poolName lifetimeCfg phone fp : String)
    (hg : env.unlabelGetOk = true) (hu : env.unlabelUpdateOk = true) :
    (selectionPhase env pool poolName lifetimeCfg phone fp).resp =
        ClaimResp.unavailable →
      ∃ n, (selectionPhase env pool poolName lifetimeCfg phone fp).assigned
          = some n ∧
        labelsCleared (selectionPhase env pool poolName lifetimeCfg phone fp).pool
          n := by
  unfold selectionPhase
  split
  · rename_i c hfind
    apply afterSelection_unavailable_clears _ _ _ _ _ hg hu
    obtain ⟨hmem, _⟩ := findAffinity_some _ _ _ _ hfind
    exact affinityBackfill_name_mem _ _ _ _ _ hmem
  · split
    · intro h; simp at h
    · exact freshSelection_unavailable_clears env pool poolName lifetimeCfg
        phone fp hg hu

theorem selectionPhase_inv (env : ClaimEnv) (pool : List ClusterClaim)
    (poolName lifetimeCfg phone fp : String)
    (h : poolAuthInvariant pool = true) :
    poolAuthInvariant (selectionPhase env pool poolName lifetimeCfg phone fp).pool
      = true := by
  unfold selectionPhase
  split
  · rename_i c hfind
    obtain ⟨hmem, m0, hl, hauth, _⟩ := findAffinity_some pool poolName phone c hfind
    apply afterSelection_inv
    unfold affinityBackfill
    split
    · split
      · apply updateClaimLabels_inv _ _ h
        simp only [labelAuth, labelPhone, hl, Option.getD_some, hauth]
        simp
      · exact h
    · exact h
  · split
    · exact h
    · exact freshSelection_inv env pool poolName lifetimeCfg phone fp h

/-! ### Helper lemmas: the authenticator flow -/

theorem createSpokeResources_effects (env : AuthEnv) (w : AuthWorld) :
    ((createSpokeResources env w).2 = true →
      (createSpokeResources env w).1.spokeCm = true ∧
      (createSpokeResources env w).1.spokeHtpass = true) ∧
    (createSpokeResources env w).1.hubAdminUpdated = w.hubAdminUpdated ∧
    (createSpokeResources env w).1.hubUserWritten = w.hubUserWritten ∧
    (createSpokeResources env w).1.claimAuth = w.claimAuth := by
  unfold createSpokeResources createSpokeResources.createSpokeHtpass
  repeat' split
  all_goals simp_all

theorem authenticateCluster_spec (env : AuthEnv) (w : AuthWorld) :
    (authenticateCluster env w).1.claimAuth = w.claimAuth ∧
    ((authenticateCluster env w).2 = true →
      (authenticateCluster env w).1.hubAdminUpdated = true ∧
      (authenticateCluster env w).1.hubUserWritten = true ∧
      (authenticateCluster env w).1.spokeCm = true ∧
      (authenticateCluster env w).1.spokeHtpass = true) := by
  have hfail : ∀ v : AuthWorld, v.claimAuth = w.claimAuth →
      ((v, false) : AuthWorld × Bool).1.claimAuth = w.claimAuth ∧
      (((v, false) : AuthWorld × Bool).2 = true →
        ((v, false) : AuthWorld × Bool).1.hubAdminUpdated = true ∧
        ((v, false) : AuthWorld × Bool).1.hubUserWritten = true ∧
        ((v, false) : AuthWorld × Bool).1.spokeCm = true ∧
        ((v, false) : AuthWorld × Bool).1.spokeHtpass = true) := by
    intro v hv
    exact ⟨hv, fun h => by simp at h⟩
  unfold authenticateCluster
  by_cases h1 : (!env.getCDOk) = true
  · rw [if_pos h1]; exact hfail w rfl
  rw [if_neg h1]
  by_cases h2 : (!env.adminRefPresent) = true
  · rw [if_pos h2]; exact hfail w rfl
  rw [if_neg h2]
  by_cases h3 : (!env.getAdminSecretOk) = true
  · rw [if_pos h3]; exact hfail w rfl
  rw [if_neg h3]
  by_cases h4 : (!env.adminKcNonEmpty) = true
  · rw [if_pos h4]; exact hfail w rfl
  rw [if_neg h4]
  by_cases h5 : (!env.restOk) = true
  · rw [if_pos h5]; exact hfail w rfl
  rw [if_neg h5]
  by_cases h6 : (!env.spokeDynOk) = true
  · rw [if_pos h6]; exact hfail w rfl
  rw [if_neg h6]
  by_cases h7 : (!env.spokeTypedOk) = true
  · rw [if_pos h7]; exact hfail w rfl
  rw [if_neg h7]
  by_cases h8 : (!env.stableOk) = true
  · rw [if_pos h8]; exact hfail w rfl
  rw [if_neg h8]
  by_cases h9 : (!env.regenAdminOk) = true
  · rw [if_pos h9]; exact hfail w rfl
  rw [if_neg h9]
  by_cases h10 : (!env.updateAdminSecretOk) = true
  · rw [if_pos h10]; exact hfail w rfl
  rw [if_neg h10]
  by_cases h11 : (!env.regenUserOk) = true
  · rw [if_pos h11]; exact hfail _ rfl
  rw [if_neg h11]
  by_cases h12 : (!env.writeUserSecretOk) = true
  · rw [if_pos h12]; exact hfail _ rfl
  rw [if_neg h12]
  by_cases h13 : (!env.newRestOk) = true
  · rw [if_pos h13]; exact hfail _ rfl
  rw [if_neg h13]
  by_cases h14 : (!env.newClientOk) = true
  · rw [if_pos h14]; exact hfail _ rfl
  rw [if_neg h14]
  refine ⟨(createSpokeResources_effects env _).2.2.2, fun h => ?_⟩
  obtain ⟨hcm, hht⟩ := (createSpokeResources_effects env _).1 h
  exact ⟨(createSpokeResources_effects env _).2.1,
    (createSpokeResources_effects env _).2.2.1, hcm, hht⟩

theorem labelClaimAuthenticated_fields (env : AuthEnv) (x : AuthWorld) :
    (labelClaimAuthenticated env x).hubAdminUpdated = x.hubAdminUpdated ∧
    (labelClaimAuthenticated env x).hubUserWritten = x.hubUserWritten ∧
    (labelClaimAuthenticated env x).spokeCm = x.spokeCm ∧
    (labelClaimAuthenticated env x).spokeHtpass = x.spokeHtpass := by
  unfold labelClaimAuthenticated
  repeat' split
  all_goals simp

/-! ### Helper lemmas: the autoscaler tick -/

theorem reconcileTick_bounds (base maxL inc θ now : Nat)
    (cnt : Option (Nat × Nat)) (s : ScalerState) (hbm : base ≤ maxL)
    (h1 : base ≤ s.effectiveLimit) (h2 : s.effectiveLimit ≤ maxL) :
    base ≤ (reconcileTick base maxL inc θ now cnt s).1.effectiveLimit ∧
      (reconcileTick base maxL inc θ now cnt s).1.effectiveLimit ≤ maxL := by
  unfold reconcileTick
  refine ⟨?_, ?_⟩
  all_goals repeat' split
  all_goals simp only [ScalerState.effectiveLimit]
  all_goals omega

theorem runTicks_bounds (base maxL inc θ : Nat)
    (inputs : List (Nat × Option (Nat × Nat))) (hbm : base ≤ maxL) :
    base ≤ (runTicks base maxL inc θ inputs).effectiveLimit ∧
      (runTicks base maxL inc θ inputs).effectiveLimit ≤ maxL := by
  unfold runTicks
  have key : ∀ (l : List (Nat × Option (Nat × Nat))) (s : ScalerState),
      base ≤ s.effectiveLimit → s.effectiveLimit ≤ maxL →
      base ≤ (l.foldl
          (fun s i => (reconcileTick base maxL inc θ i.1 i.2 s).1) s).effectiveLimit ∧
        (l.foldl
          (fun s i => (reconcileTick base maxL inc θ i.1 i.2 s).1) s).effectiveLimit
          ≤ maxL := by
    intro l
    induction l with
    | nil => intro s g1 g2; exact ⟨g1, g2⟩
    | cons i rest ih =>
      intro s g1 g2
      simp only [List.foldl_cons]
      obtain ⟨k1, k2⟩ := reconcileTick_bounds base maxL inc θ i.1 i.2 s hbm g1 g2
      exact ih _ k1 k2
  exact key inputs (initialScalerState base) le_rfl hbm

theorem reconcileTick_cooldown (base maxL inc θ now : Nat)
    (cnt : Option (Nat × Nat)) (s : ScalerState) (t : Nat)
    (hlast : s.lastScaleUp = some t) :
    (reconcileTick base maxL inc θ now cnt s).2 = TickBranch.scaleUpInc →
      1500 ≤ now - t := by
  unfold reconcileTick
  repeat' split
  all_goals intro h
  all_goals try simp at h
  all_goals simp_all

theorem reconcileTick_inc_sets_last (base maxL inc θ now : Nat)
    (cnt : Option (Nat × Nat)) (s : ScalerState) :
    (reconcileTick base maxL inc θ now cnt s).2 = TickBranch.scaleUpInc →
      (reconcileTick base maxL inc θ now cnt s).1.lastScaleUp = some now := by
  unfold reconcileTick
  repeat' split
  all_goals intro h
  all_goals try simp at h
  all_goals rfl

theorem reconcileTick_noinc_keeps_last (base maxL inc θ now : Nat)
    (cnt : Option (Nat × Nat)) (s : ScalerState) :
    (reconcileTick base maxL inc θ now cnt s).2 ≠ TickBranch.scaleUpInc →
      (reconcileTick base maxL inc θ now cnt s).1.lastScaleUp = s.lastScaleUp := by
  unfold reconcileTick
  repeat' split
  all_goals intro h
  all_goals first
    | rfl
    | (exfalso; exact h rfl)

/-! ### Helper lemmas: the readiness probe -/

/-! ### Claim theorems -/

/-- C1: handleClaim preserves the invariant that every claim of the pool
carrying a non-empty prelude phone label also carries prelude-auth=done.
Affinity re-bind, the device-conflict check and fresh selection only ever
consider or label claims that already have prelude-auth=done, and the
unlabel-on-failure path removes phone and auth together, so no operation
creates the forbidden combination {phone} without {auth=done}. -/
theorem handleClaim_preserves_phone_auth_invariant (method : HttpMethod)
    (secretKey : String) (req : ClaimRequest) (env : ClaimEnv)
    (pool : List ClusterClaim) (poolName lifetimeCfg : String)
    (h : poolAuthInvariant pool = true) :
    poolAuthInvariant
      (handleClaim method secretKey req env pool poolName lifetimeCfg).pool
      = true := by
  unfold handleClaim
  cases method
  all_goals try exact h
  repeat' split
  all_goals try exact h
  all_goals apply selectionPhase_inv _ _ _ _ _ _ h

/-- C1 witness: a concrete authenticated pool before and after a claim. -/
theorem handleClaim_preserves_phone_auth_invariant_witness :
    poolAuthInvariant
      (handleClaim HttpMethod.post "" ⟨"+61 435 999 768", "s3cret", "", "abc123"⟩
        ⟨true, true, true, true, true, 0, true, "https://c", "adm-kubeconfig",
         some "kc", some "kc", true, true, true⟩
        [⟨"prelude1", some "pool", "ns1", some "2h", 30, some ⟨"", "done", ""⟩⟩]
        "pool" "2h").pool = true :=
  handleClaim_preserves_phone_auth_invariant HttpMethod.post "" _ _ _ "pool" "2h"
    (by decide)

/-- C2: in the authenticator's per-claim processing, prelude-auth=done is
written only after authenticateCluster succeeds, i.e. only once the admin
kubeconfig secret update on the hub, the create-or-update of the user
kubeconfig secret, and the create-if-missing of the prelude configmap and
htpass-secret have all completed; on any step failure the claim stays
unlabeled. -/
theorem authenticator_labels_only_after_success (env : AuthEnv) (w : AuthWorld)
    (h : w.claimAuth ≠ "done") :
    ((processClaimAuth env w).claimAuth = "done" →
      (authenticateCluster env w).2 = true ∧
      (processClaimAuth env w).hubAdminUpdated = true ∧
      (processClaimAuth env w).hubUserWritten = true ∧
      (processClaimAuth env w).spokeCm = true ∧
      (processClaimAuth env w).spokeHtpass = true) ∧
    ((authenticateCluster env w).2 = false →
      (processClaimAuth env w).claimAuth = w.claimAuth) := by
  unfold processClaimAuth
  split
  · rename_i hdone
    refine ⟨fun _ => absurd ?_ h, fun _ => rfl⟩
    simpa using hdone
  · split
    · exact ⟨fun hc => absurd hc h, fun _ => rfl⟩
    · split
      · rename_i hok
        constructor
        · intro _
          obtain ⟨ha, hu2, hcm, hht⟩ := (authenticateCluster_spec env w).2 hok
          obtain ⟨f1, f2, f3, f4⟩ :=
            labelClaimAuthenticated_fields env (authenticateCluster env w).1
          exact ⟨hok, f1.trans ha, f2.trans hu2, f3.trans hcm, f4.trans hht⟩
        · intro hfalse
          rw [hok] at hfalse
          simp at hfalse
      · rename_i hok
        have hca := (authenticateCluster_spec env w).1
        refine ⟨fun hc => ?_, fun _ => hca⟩
        rw [hca] at hc
        exact absurd hc h

/-- C2 witness: with every step succeeding on an unlabeled bound claim, the
label is written and all four commit effects hold. -/
theorem authenticator_labels_only_after_success_witness :
    (authenticateCluster
        ⟨true, true, true, true, true, true, true, true, true, true, true, true,
         true, true, false, true, false, true, true, true⟩
        ⟨"", true, false, false, false, false⟩).2 = true ∧
      (processClaimAuth
        ⟨true, true, true, true, true, true, true, true, true, true, true, true,
         true, true, false, true, false, true, true, true⟩
        ⟨"", true, false, false, false, false⟩).hubAdminUpdated = true ∧
      (processClaimAuth
        ⟨true, true, true, true, true, true, true, true, true, true, true, true,
         true, true, false, true, false, true, true, true⟩
        ⟨"", true, false, false, false, false⟩).hubUserWritten = true ∧
      (processClaimAuth
        ⟨true, true, true, true, true, true, true, true, true, true, true, true,
         true, true, false, true, false, true, true, true⟩
        ⟨"", true, false, false, false, false⟩).spokeCm = true ∧
      (processClaimAuth
        ⟨true, true, true, true, true, true, true, true, true, true, true, true,
         true, true, false, true, false, true, true, true⟩
        ⟨"", true, false, false, false, false⟩).spokeHtpass = true :=
  (authenticator_labels_only_after_success _ _ (by decide)).1 (by decide)

/-- C3 counterexample: when the store get inside unlabelClaim fails (the
source only logs it), handleClaim still answers 503 cluster_unavailable
while the selected claim keeps its prelude phone label — so the labels are
not always cleared before the response is sent. -/
theorem cluster_unavailable_labels_kept_counterexample :
    (handleClaim HttpMethod.post "" ⟨"0412 333 444", "pw", "", ""⟩
        ⟨true, true, true, true, true, 0, true, "https://c", "adm-kubeconfig",
         some "kc", some "kc", false, false, true⟩
        [⟨"prelude1", some "pool", "ns1", none, 30, some ⟨"", "done", ""⟩⟩]
        "pool" "2h").resp = ClaimResp.unavailable ∧
      labelPhone ((handleClaim HttpMethod.post "" ⟨"0412 333 444", "pw", "", ""⟩
        ⟨true, true, true, true, true, 0, true, "https://c", "adm-kubeconfig",
         some "kc", some "kc", false, false, true⟩
        [⟨"prelude1", some "pool", "ns1", none, 30, some ⟨"", "done", ""⟩⟩]
        "pool" "2h").pool.getD 0 dummyClaim) = "0412-333-444" ∧
      ("0412-333-444" : String) ≠ "" := by
  refine ⟨by decide, by decide, by decide⟩

/-- C3 (amended): every handleClaim call answered 503 cluster_unavailable
(the htpasswd write failed) invokes unlabelClaim on the selected claim
before the response; whenever unlabelClaim's two store calls (get and
update) succeed, the claim has the prelude, prelude-auth and prelude-fp
labels all cleared at response time, so it is neither assigned nor counted
as ready. If either store call fails, the source only logs and the 503 is
sent with the labels intact. -/
theorem cluster_unavailable_unlabels_claim (method : HttpMethod)
    (secretKey : String) (req : ClaimRequest) (env : ClaimEnv)
    (pool : List ClusterClaim) (poolName lifetimeCfg : String)
    (hg : env.unlabelGetOk = true) (hu : env.unlabelUpdateOk = true) :
    (handleClaim method secretKey req env pool poolName lifetimeCfg).resp =
        ClaimResp.unavailable →
      ∃ n, (handleClaim method secretKey req env pool poolName lifetimeCfg).assigned
          = some n ∧
        labelsCleared
          (handleClaim method secretKey req env pool poolName lifetimeCfg).pool
          n := by
  unfold handleClaim
  cases method
  case post =>
    repeat' split
    all_goals try (intro h; exact absurd h (by simp))
    all_goals exact selectionPhase_unavailable_clears _ _ _ _ _ _ hg hu
  all_goals intro h
  all_goals exact absurd h (by simp)

/-- C3 witness: a concrete pool whose downstream htpasswd write fails; the
503 answer leaves the selected claim with all three labels cleared. -/
theorem cluster_unavailable_unlabels_claim_witness :
    ∃ n, (handleClaim HttpMethod.post "" ⟨"0412 333 444", "pw", "", ""⟩
        ⟨true, true, true, true, true, 0, true, "https://c", "adm-kubeconfig",
         some "kc", some "kc", false, true, true⟩
        [⟨"prelude1", some "pool", "ns1", none, 30, some ⟨"", "done", ""⟩⟩]
        "pool" "2h").assigned = some n ∧
      labelsCleared (handleClaim HttpMethod.post "" ⟨"0412 333 444", "pw", "", ""⟩
        ⟨true, true, true, true, true, 0, true, "https://c", "adm-kubeconfig",
         some "kc", some "kc", false, true, true⟩
        [⟨"prelude1", some "pool", "ns1", none, 30, some ⟨"", "done", ""⟩⟩]
        "pool" "2h").pool n :=
  cluster_unavailable_unlabels_claim HttpMethod.post "" _ _ _ "pool" "2h"
    rfl rfl (by decide)

/-- C4 counterexample: with an empty pool the count is (0, 0), so available
is at or below the default threshold θ = 1, yet the tick enters the
scale-down/hysteresis path (the source takes that path whenever the
scale-up condition available ≤ θ ∧ ready > 0 fails, including when
ready = 0). -/
theorem hysteresis_zero_ready_counterexample :
    (reconcileTick 4 10 1 1 0
        (some (countAvailableAndReadyClaims [] "pool")) (initialScalerState 4)).2 =
      TickBranch.hysteresis ∧
    (countAvailableAndReadyClaims [] "pool").1 ≤ 1 := by
  decide

/-- C4 (amended): on a tick whose count succeeds, the
hysteresis/scale-down path is entered exactly when NOT (available ≤ θ and
ready > 0) — that is, when available exceeds θ or no claim is ready; with
available ≤ θ and at least one ready claim it is never entered. -/
theorem hysteresis_branch_iff (base maxL inc θ now a r : Nat) (s : ScalerState) :
    (reconcileTick base maxL inc θ now (some (a, r)) s).2 = TickBranch.hysteresis ↔
      ¬(a ≤ θ ∧ 0 < r) := by
  simp only [reconcileTick]
  by_cases hc : a ≤ θ ∧ 0 < r
  · rw [if_pos hc]
    constructor
    · intro hbr
      exfalso
      revert hbr
      repeat' split
      all_goals simp
    · intro hn
      exact absurd hc hn
  · rw [if_neg hc]
    refine iff_of_true ?_ hc
    repeat' split
    all_goals rfl

/-- C5: across every run of reconcile ticks the effective limit stays in
[baseLimit, maxLimit] (starting from baseLimit, given main's adjustment
baseLimit ≤ maxLimit); a tick increments the limit only when at least
1500 s (25 min) have passed since the recorded last scale-up, an increment
re-stamps that record with the tick's time, and a non-incrementing tick
leaves it unchanged — so consecutive increments are separated by the
cooldown. -/
theorem autoscaler_limit_bounds_and_cooldown :
    (∀ base maxL inc θ inputs, base ≤ maxL →
      base ≤ (runTicks base maxL inc θ inputs).effectiveLimit ∧
        (runTicks base maxL inc θ inputs).effectiveLimit ≤ maxL) ∧
    (∀ base maxL inc θ now cnt s t, s.lastScaleUp = some t →
      (reconcileTick base maxL inc θ now cnt s).2 = TickBranch.scaleUpInc →
        1500 ≤ now - t) ∧
    (∀ base maxL inc θ now cnt s,
      (reconcileTick base maxL inc θ now cnt s).2 = TickBranch.scaleUpInc →
        (reconcileTick base maxL inc θ now cnt s).1.lastScaleUp = some now) ∧
    (∀ base maxL inc θ now cnt s,
      (reconcileTick base maxL inc θ now cnt s).2 ≠ TickBranch.scaleUpInc →
        (reconcileTick base maxL inc θ now cnt s).1.lastScaleUp = s.lastScaleUp) :=
  ⟨fun base maxL inc θ inputs h => runTicks_bounds base maxL inc θ inputs h,
   fun base maxL inc θ now cnt s t h1 h2 =>
     reconcileTick_cooldown base maxL inc θ now cnt s t h1 h2,
   fun base maxL inc θ now cnt s h =>
     reconcileTick_inc_sets_last base maxL inc θ now cnt s h,
   fun base maxL inc θ now cnt s h =>
     reconcileTick_noinc_keeps_last base maxL inc θ now cnt s h⟩

/-- C5 witness: a two-tick run staying in [4, 10]; an increment exactly at
the cooldown boundary; the stamp update; and stamp preservation on a
hysteresis tick. -/
theorem autoscaler_limit_bounds_and_cooldown_witness :
    (4 ≤ (runTicks 4 10 1 1 [(0, some (0, 4)), (1600, some (0, 4))]).effectiveLimit ∧
      (runTicks 4 10 1 1 [(0, some (0, 4)), (1600, some (0, 4))]).effectiveLimit ≤ 10) ∧
    1500 ≤ 1600 - 100 ∧
    (reconcileTick 4 10 1 1 1600 (some (0, 4)) ⟨5, none, some 100⟩).1.lastScaleUp
      = some 1600 ∧
    (reconcileTick 4 10 1 1 50 (some (3, 4)) ⟨5, none, some 100⟩).1.lastScaleUp
      = some 100 :=
  ⟨autoscaler_limit_bounds_and_cooldown.1 4 10 1 1 _ (by decide),
   autoscaler_limit_bounds_and_cooldown.2.1 4 10 1 1 1600 (some (0, 4))
     ⟨5, none, some 100⟩ 100 rfl (by decide),
   autoscaler_limit_bounds_and_cooldown.2.2.1 4 10 1 1 1600 (some (0, 4))
     ⟨5, none, some 100⟩ (by decide),
   autoscaler_limit_bounds_and_cooldown.2.2.2 4 10 1 1 50 (some (3, 4))
     ⟨5, none, some 100⟩ (by decide)⟩

/-- C6 counterexample: a GET whose phone parameter sanitizes to empty is
answered with HTTP 400 — an HTTP failure for a GET request. -/
theorem cluster_ready_empty_phone_counterexample :
    handleClusterReady .get ""
        ⟨true, true, "ref", some "kc", true, true, some [("Progressing", "False")]⟩
        [] "pool" = ReadyResp.badRequest := by
  decide

/-- C6 (amended): for every GET whose phone sanitizes non-empty the probe
answers a JSON {ready:b} and never an HTTP failure; b is true exactly when
every lookup step succeeds (claim found and bound, deployment and secret
fetched, kubeconfig non-empty and buildable, operator fetched) and the
downstream authentication operator reports a Progressing condition with
status False; every lookup failure yields {ready:false}. -/
theorem handleClusterReady_spec (rawPhone : String) (env : ReadyEnv)
    (pool : List ClusterClaim) (poolName : String)
    (h : sanitizePhone rawPhone ≠ "") :
    handleClusterReady .get rawPhone env pool poolName =
      ReadyResp.ready (readySpecSuccess env pool poolName (sanitizePhone rawPhone)) := by
  have h2 : (sanitizePhone rawPhone == "") = false := by simpa using h
  unfold handleClusterReady readySpecSuccess
  rw [h2]
  repeat' split
  all_goals simp_all

/-- C6 witness: a failing claim list yields {ready:false} for a well-formed
GET. -/
theorem handleClusterReady_spec_witness :
    handleClusterReady .get "0412"
        ⟨false, true, "ref", some "kc", true, true, none⟩ [] "pool" =
      ReadyResp.ready false := by
  have hx := handleClusterReady_spec "0412"
    ⟨false, true, "ref", some "kc", true, true, none⟩ [] "pool" (by decide)
  rw [hx]
  decide

/-- C7 counterexample: sanitizeFingerprint keeps an uppercase hex character
verbatim, while filtering to lowercase hex (the claim's wording) would drop
it. -/
theorem sanitizeFingerprint_lowercase_counterexample :
    sanitizeFingerprint "A" = "A" ∧ sanitizeFingerprintSpecLowerHex "A" = "" := by
  decide

/-- C7 (amended): sanitizeFingerprint returns its input filtered to hex
characters of either case — kept verbatim, not lowercased — and truncated
to 16 characters; an input of only non-hex characters yields the empty
string, and with an empty sanitized fingerprint handleClaim never answers
device_already_claimed (no conflict check applies). -/
theorem sanitizeFingerprint_hex_truncate :
    (∀ s : String,
      sanitizeFingerprint s = String.mk ((s.toList.filter isHexCh).take 16)) ∧
    (∀ s : String, (∀ c ∈ s.toList, isHexCh c = false) →
      sanitizeFingerprint s = "") ∧
    (∀ method secretKey req env pool poolName lifetimeCfg,
      sanitizeFingerprint req.fingerprint = "" →
      (handleClaim method secretKey req env pool poolName lifetimeCfg).resp ≠
        ClaimResp.conflictDevice) := by
  refine ⟨sanitizeFingerprint_eq_filter_take, ?_, handleClaim_fp_empty_ne_conflict⟩
  intro s hs
  rw [sanitizeFingerprint_eq_filter_take]
  have hnil : s.toList.filter isHexCh = [] := by
    rw [List.filter_eq_nil_iff]
    intro c hc
    simp [hs c hc]
  rw [hnil]
  rfl

/-- C7 witness: a non-hex input sanitizes to empty, and such a request can
not be answered device_already_claimed. -/
theorem sanitizeFingerprint_hex_truncate_witness :
    sanitizeFingerprint "zz!" = "" ∧
    (handleClaim HttpMethod.post "" ⟨"+61 435", "pw", "", "zz!"⟩
        ⟨true, true, true, true, true, 0, true, "", "", none, none, true, true, true⟩
        [] "pool" "2h").resp ≠ ClaimResp.conflictDevice :=
  ⟨sanitizeFingerprint_hex_truncate.2.1 "zz!" (by decide),
   sanitizeFingerprint_hex_truncate.2.2 HttpMethod.post "" _ _ [] "pool" "2h"
     (by decide)⟩

/-- C8 counterexample: "160000000m" is composed only of whole m terms, yet
its int64-nanosecond value wraps negative (Go's time.Duration arithmetic),
formatDuration renders it "0m", and re-parsing gives 0 — so neither the
original string nor the original value round-trips ("1d" likewise formats
as "24h", since formatDuration never emits d units). -/
theorem duration_overflow_roundtrip_counterexample :
    parseDuration "160000000m" = Except.ok (-8846744073709551616) ∧
      formatDuration (-8846744073709551616) = "0m" ∧
      parseDuration (formatDuration (-8846744073709551616)) = Except.ok 0 ∧
      (-8846744073709551616 : Int) ≠ 0 ∧
      parseDuration "1d" = Except.ok 86400000000000 ∧
      formatDuration 86400000000000 = "24h" :=
  ⟨rfl, rfl, rfl, by decide, rfl, by decide⟩

/-- C8 (amended): for every duration string composed only of whole d/h/m
terms that parseDuration accepts, whenever the parsed int64-nanosecond
value is a nonnegative whole number of minutes (i.e. the wrapping int64
arithmetic did not overflow it into a negative or sub-minute-residue
value), formatting it and re-parsing returns the same value; the formatted
string uses only h/m units and overflowed negative values format as "0m",
so neither the original string nor, under overflow, the original value is
returned. -/
theorem parseDuration_roundtrip_value (s : String) (v : Int) (m : Nat)
    (hp : parseDuration s = Except.ok v)
    (hm : v = 60000000000 * (m : Int)) :
    parseDuration (formatDuration v) = Except.ok v :=
  parseDuration_formatDuration_minutes v m hm (parseDuration_ok_range s v hp).2

/-- C8 witness: "1d12h" parses to 36 h of nanoseconds, formats to "36h",
and re-parses to the same value. -/
theorem parseDuration_roundtrip_value_witness :
    parseDuration (formatDuration 129600000000000) = Except.ok 129600000000000 :=
  parseDuration_roundtrip_value "1d12h" 129600000000000 2160 rfl (by decide)

/-- C9: phone sanitization is idempotent. -/
theorem sanitizePhone_idempotent (s : String) :
    sanitizePhone (sanitizePhone s) = sanitizePhone s := by
  unfold sanitizePhone
  rw [toList_mk]
  rw [sanitizePhoneMap_fixed _ fun c hc =>
    sanitizePhoneMap_chars s.toList c (mem_goTrim isTrimCut _ c hc)]
  rw [goTrim_idem]

/-- C10: when a captcha secret key is configured, a POST with a missing or
failing token is answered 403 before phone and password validation and
before any resource-store access: the response is forbidden even when the
phone or password is empty (the 400 path is never reached), and the pool is
returned untouched. -/
theorem captcha_checked_before_validation_and_store (secretKey : String)
    (req : ClaimRequest) (env : ClaimEnv) (pool : List ClusterClaim)
    (poolName lifetimeCfg : String) (hsk : secretKey ≠ "")
    (hb : env.bodyOk = true)
    (htok : req.recaptchaToken = "" ∨ env.captchaOk = false) :
    (handleClaim .post secretKey req env pool poolName lifetimeCfg).resp =
        ClaimResp.forbiddenCaptcha ∧
      (handleClaim .post secretKey req env pool poolName lifetimeCfg).pool
        = pool := by
  have hsk2 : (secretKey != "") = true := by simpa using hsk
  unfold handleClaim
  by_cases ht : (req.recaptchaToken == "") = true
  · simp only [hb, Bool.not_true, Bool.false_eq_true, if_false, hsk2,
      Bool.true_and, ht, if_true]
    exact ⟨by trivial, by trivial⟩
  · have ht2 : (req.recaptchaToken == "") = false := by simpa using ht
    have hcap : env.captchaOk = false := by
      rcases htok with hx | hx
      · exact absurd (by simp [hx]) ht
      · exact hx
    simp only [hb, Bool.not_true, Bool.false_eq_true, if_false, hsk2,
      Bool.true_and, ht2, hcap, Bool.not_false, if_true]
    exact ⟨by trivial, by trivial⟩

/-- C10 witness: empty phone and password with a missing token still gets
403 with the pool untouched. -/
theorem captcha_checked_before_validation_and_store_witness :
    (handleClaim HttpMethod.post "sekrit" ⟨"", "", "", ""⟩
        ⟨true, true, true, true, true, 0, true, "", "", none, none, true, true, true⟩
        [] "pool" "2h").resp = ClaimResp.forbiddenCaptcha ∧
      (handleClaim HttpMethod.post "sekrit" ⟨"", "", "", ""⟩
        ⟨true, true, true, true, true, 0, true, "", "", none, none, true, true, true⟩
        [] "pool" "2h").pool = [] :=
  captcha_checked_before_validation_and_store "sekrit" _ _ [] "pool" "2h"
    (by decide) rfl (Or.inl rfl)

end PreludeGw
